import Mathlib

/-!
Verification of `examples/mock-a2a-server.py` (gridctl repository).

The server keeps one in-memory table `tasks` (a Python dict from task id to
task dict) and dispatches JSON-RPC requests to four handlers.  We embed the
JSON values the server manipulates, the task table as an association list
(Python dicts preserve insertion order; assignment to an existing key keeps
its position), and each handler as a function returning `Option`:
`none` models an uncaught Python exception (e.g. `AttributeError` from
`.get` on a non-dict, `TypeError` from `in`/indexing/`+=` on ill-typed
values), in which case no HTTP response is written and the table is
untouched (the only table mutations occur after every crash point).
-/

set_option autoImplicit false

namespace A2A

/-- JSON values (numbers modelled as integers; no claim involves floats). -/
inductive Json where
  | null
  | bool (b : Bool)
  | num (n : Int)
  | str (s : String)
  | arr (elems : List Json)
  | obj (fields : List (String × Json))

/-- Python `d.get(key, default)`: succeeds only on a dict (`AttributeError`
otherwise); first binding wins, which matches Python dicts whose keys are
unique. -/
def Json.pyGet : Json → String → Json → Option Json
  | .obj fields, key, dflt => some ((fields.lookup key).getD dflt)
  | _, _, _ => none

/-- Python `v == "s"` for a JSON value: true exactly when `v` is that string
(equality between a string and any other type is `False`, no exception). -/
def Json.isEqStr : Json → String → Bool
  | .str t, s => t == s
  | _, _ => false

/-- Python `f"{v}"` for the scalar values that can reach a format position in
the handlers.  Structured values would be rendered with `repr`; that case is
not modelled (`none`) and no theorem depends on it. -/
def Json.pyFormat : Json → Option String
  | .str s => some s
  | .null => some "None"
  | .bool true => some "True"
  | .bool false => some "False"
  | .num n => some (toString n)
  | _ => none

/-- Python iteration `for part in parts`: lists yield elements, strings yield
their one-character substrings, dicts yield their keys; other values raise
`TypeError`. -/
def Json.pyIter : Json → Option (List Json)
  | .arr elems => some elems
  | .str s => some (s.data.map fun c => .str (String.singleton c))
  | .obj fields => some (fields.map fun f => .str f.1)
  | _ => none

/-- Whether `pat` occurs as a contiguous run inside the second list. -/
def charsContain (pat : List Char) : List Char → Bool
  | [] => pat.isEmpty
  | c :: cs => pat.isPrefixOf (c :: cs) || charsContain pat cs

/-- Python substring containment, `pat in s`. -/
def strContains (s pat : String) : Bool :=
  charsContain pat.data s.data

/-- Python `key in v`: key membership for dicts, substring test for strings,
element membership for lists (comparing against the string key); `TypeError`
for the remaining types. -/
def pyContains (key : String) : Json → Option Bool
  | .obj fields => some (fields.any fun f => f.1 == key)
  | .str s => some (strContains s key)
  | .arr elems => some (elems.any fun e => e.isEqStr key)
  | _ => none

/-- Python `v[key]` with a string key: only dicts support it (`KeyError` on a
missing key, also `none` here; it is only reached behind a successful
`key in v`). -/
def pySubscript : Json → String → Option Json
  | .obj fields, key => fields.lookup key
  | _, _ => none

/-- A stored task: the dict
`{"id": task_id, "state": ..., "messages": [...]}` built by
`handle_message_send`. -/
structure Task where
  id : String
  state : String
  messages : List Json

/-- The task dict as the JSON value sent in responses. -/
def Task.toJson (t : Task) : Json :=
  .obj [("id", .str t.id), ("state", .str t.state), ("messages", .arr t.messages)]

/-- The in-memory `tasks` dict: association list in insertion order. -/
abbrev Table := List (String × Task)

/-- A JSON-RPC response as produced by one `send_json` call: HTTP status,
the `result`-or-`error` member, and the echoed `id` member (the constant
`"jsonrpc": "2.0"` member is the same in every response and left implicit). -/
inductive Outcome where
  | result (r : Json)
  | error (code : Int) (msg : String)

structure Response where
  status : Nat
  outcome : Outcome
  id : Json

/-- The text-extraction loop of `handle_message_send`: for each part, if
"text" is in the part, append the subscripted value to the accumulator.
Appending a non-string raises `TypeError`, as does indexing a string or list
part by the string key. -/
def extractLoop : List Json → String → Option String
  | [], acc => some acc
  | p :: ps, acc =>
    match pyContains "text" p with
    | none => none
    | some false => extractLoop ps acc
    | some true =>
      match pySubscript p "text" with
      | some (.str t) => extractLoop ps (acc ++ t)
      | _ => none

/-- The binding of the incoming message: read the "message" member of params,
defaulting to the empty dict. -/
def incomingMessage (params : Json) : Option Json :=
  params.pyGet "message" (.obj [])

/-- The "parts" member of the message (defaulting to the empty list)
followed by iteration and the extraction loop. -/
def messageText (message : Json) : Option String := do
  let parts ← message.pyGet "parts" (.arr [])
  let elems ← parts.pyIter
  extractLoop elems ""

/-- The whole text extraction of `handle_message_send` from its `params`. -/
def extractText (params : Json) : Option String := do
  let message ← incomingMessage params
  messageText message

def greetingReply : String :=
  "Hello! I\x27m the Mock Test Agent. How can I help you today?"

def helpReply : String :=
  "I\x27m a mock A2A agent for testing. I can echo messages and respond to greetings. Try saying \x27hello\x27 or ask me to \x27echo\x27 something!"

def genericReply (text : String) : String :=
  "I received your message: \x27" ++ text ++ "\x27. I\x27m a mock agent for testing A2A protocol integration."

/-- Python `text.lower()`, modelled character-wise with ASCII lowering
(`Char.toLower`); it agrees with Python on ASCII text, and every pattern the
server matches against is ASCII. -/
def strLower (s : String) : String :=
  String.mk (s.data.map Char.toLower)

/-- The response-classification chain of `handle_message_send`. -/
def responseText (text : String) : String :=
  if strContains (strLower text) "hello" || strContains (strLower text) "hi" then
    greetingReply
  else if strContains (strLower text) "help" then
    helpReply
  else if strContains (strLower text) "echo" then
    "Echo: " ++ text
  else
    genericReply text

/-- The agent reply message `{"role": "agent", "parts": [{"text": ...}]}`. -/
def agentMessage (text : String) : Json :=
  .obj [("role", .str "agent"), ("parts", .arr [.obj [("text", .str text)]])]

/-- Python `tasks[task_id] = task`: replace in place when the key exists
(keeping its position), append otherwise. -/
def dictInsert (tasks : Table) (k : String) (v : Task) : Table :=
  if tasks.any fun p => p.1 == k then
    tasks.map fun p => if p.1 == k then (p.1, v) else p
  else
    tasks ++ [(k, v)]

/-- Handler for message/send.  `task_id` is the value produced by
`uuid.uuid4()`, an external source of randomness, so it enters the model as
an argument. -/
def handle_message_send (tasks : Table) (params reqId : Json) (task_id : String) :
    Option (Table × Response) :=
  match incomingMessage params with
  | none => none
  | some message =>
    match messageText message with
    | none => none
    | some text =>
      let task : Task := ⟨task_id, "completed", [message, agentMessage (responseText text)]⟩
      some (dictInsert tasks task_id task, ⟨200, .result task.toJson, reqId⟩)

/-- Handler for tasks/get.  The handler reads the "taskId" member of params
(default None); membership in the table raises `TypeError` on unhashable
values (lists, dicts), is a key lookup for strings, and is `False` for the
other scalars, since the table keys are strings. -/
def handle_tasks_get (tasks : Table) (params reqId : Json) : Option (Table × Response) :=
  match params.pyGet "taskId" .null with
  | none => none
  | some (.str s) =>
    match tasks.lookup s with
    | some t => some (tasks, ⟨200, .result t.toJson, reqId⟩)
    | none => some (tasks, ⟨404, .error (-32000) ("Task not found: " ++ s), reqId⟩)
  | some (.arr _) => none
  | some (.obj _) => none
  | some v => some (tasks, ⟨404, .error (-32000) ("Task not found: " ++ (v.pyFormat.getD "")), reqId⟩)

/-- Handler for tasks/list: an object with a "tasks" member holding all
stored task values in insertion order. -/
def handle_tasks_list (tasks : Table) (_params reqId : Json) : Option (Table × Response) :=
  some (tasks, ⟨200, .result (.obj [("tasks", .arr (tasks.map fun q => q.2.toJson))]), reqId⟩)

/-- The in-place state flip performed by tasks/cancel: the dict keeps its
keys and positions, and only the state of the addressed task changes. -/
def cancelTable (tasks : Table) (s : String) : Table :=
  tasks.map fun p => if p.1 == s then (p.1, { p.2 with state := "cancelled" }) else p

/-- Handler for tasks/cancel.  On a hit, the stored task is mutated in place
and then sent back; since keys are unique, the task sent back is the found
task with its `state` replaced. -/
def handle_tasks_cancel (tasks : Table) (params reqId : Json) : Option (Table × Response) :=
  match params.pyGet "taskId" .null with
  | none => none
  | some (.str s) =>
    match tasks.lookup s with
    | some t =>
      some (cancelTable tasks s, ⟨200, .result (Task.toJson { t with state := "cancelled" }), reqId⟩)
    | none => some (tasks, ⟨404, .error (-32000) ("Task not found: " ++ s), reqId⟩)
  | some (.arr _) => none
  | some (.obj _) => none
  | some v => some (tasks, ⟨404, .error (-32000) ("Task not found: " ++ (v.pyFormat.getD "")), reqId⟩)

/-- The request body as seen after `json.loads`: either a decode failure or a
JSON value. -/
inductive Body where
  | parseError
  | ok (request : Json)

/-- The POST entry point after reading the body: parse, envelope validation,
dispatch.  Reading a member of a non-dict body raises `AttributeError`
(`none`). -/
def do_POST (tasks : Table) (body : Body) (freshId : String) : Option (Table × Response) :=
  match body with
  | .parseError => some (tasks, ⟨400, .error (-32700) "Parse error", .null⟩)
  | .ok request =>
    match request.pyGet "jsonrpc" .null, request.pyGet "method" .null,
        request.pyGet "params" (.obj []), request.pyGet "id" .null with
    | some jsonrpc, some method, some params, some reqId =>
      if !(jsonrpc.isEqStr "2.0") then
        some (tasks, ⟨400, .error (-32600) "Invalid Request", reqId⟩)
      else if method.isEqStr "message/send" then handle_message_send tasks params reqId freshId
      else if method.isEqStr "tasks/get" then handle_tasks_get tasks params reqId
      else if method.isEqStr "tasks/list" then handle_tasks_list tasks params reqId
      else if method.isEqStr "tasks/cancel" then handle_tasks_cancel tasks params reqId
      else
        match method.pyFormat with
        | some m => some (tasks, ⟨400, .error (-32601) ("Method not found: " ++ m), reqId⟩)
        | none => none
    | _, _, _, _ => none

/-- One of the four JSON-RPC operations, with the data each handler receives;
a `send` also carries the id drawn from `uuid.uuid4()`. -/
inductive Op where
  | send (params reqId : Json) (freshId : String)
  | get (params reqId : Json)
  | list (params reqId : Json)
  | cancel (params reqId : Json)

/-- The effect of one operation on the task table.  A handler that raises
(`none`) leaves the table untouched: in every handler the sole mutation comes
after all crash points. -/
def applyOp (tasks : Table) : Op → Table
  | .send p r f =>
    match handle_message_send tasks p r f with
    | some out => out.1
    | none => tasks
  | .get p r =>
    match handle_tasks_get tasks p r with
    | some out => out.1
    | none => tasks
  | .list p r =>
    match handle_tasks_list tasks p r with
    | some out => out.1
    | none => tasks
  | .cancel p r =>
    match handle_tasks_cancel tasks p r with
    | some out => out.1
    | none => tasks

/-- The table reached from the empty initial table by a sequence of
operations. -/
def runOps (ops : List Op) : Table :=
  ops.foldl applyOp []

/-- The server-generated ids of the `send` operations of a trace. -/
def sendFreshIds (ops : List Op) : List String :=
  ops.filterMap fun op => match op with
    | .send _ _ f => some f
    | _ => none

/-- The task built and stored by `handle_message_send`. -/
def sendTask (tid : String) (message : Json) (text : String) : Task :=
  ⟨tid, "completed", [message, agentMessage (responseText text)]⟩

/-! ### Helper lemmas -/

theorem any_key_eq_isSome_lookup {β : Type} (key : String) (l : List (String × β)) :
    (l.any fun p => p.1 == key) = (l.lookup key).isSome := by
  induction l with
  | nil => rfl
  | cons p l ih =>
    obtain ⟨k, v⟩ := p
    by_cases h : k = key
    · subst h; simp [List.lookup]
    · have h1 : (k == key) = false := by simp [h]
      have h2 : (key == k) = false := by simp [Ne.symm h]
      simp [List.lookup, h1, h2, ih]

theorem dictInsert_of_fresh {tasks : Table} {k : String} {v : Task}
    (h : (tasks.any fun p => p.1 == k) = false) :
    dictInsert tasks k v = tasks ++ [(k, v)] := by
  simp [dictInsert, h]

theorem keys_map_cond (tasks : Table) (k : String) (g : Task → Task) :
    (tasks.map fun p => if p.1 == k then (p.1, g p.2) else p).map Prod.fst =
      tasks.map Prod.fst := by
  rw [List.map_map]
  apply List.map_congr_left
  intro p _
  by_cases h : p.1 = k <;> simp [Function.comp, h]

theorem keys_cancelTable (tasks : Table) (s : String) :
    (cancelTable tasks s).map Prod.fst = tasks.map Prod.fst := by
  unfold cancelTable
  exact keys_map_cond tasks s fun t => { t with state := "cancelled" }

theorem keys_dictInsert (tasks : Table) (k : String) (v : Task) :
    (dictInsert tasks k v).map Prod.fst = tasks.map Prod.fst ∨
    (dictInsert tasks k v).map Prod.fst = tasks.map Prod.fst ++ [k] := by
  unfold dictInsert
  split
  · exact Or.inl (keys_map_cond tasks k fun _ => v)
  · right; simp

theorem lookup_map_cond (g : Task → Task) {s : String} :
    ∀ {l : Table} {t : Task}, l.lookup s = some t →
      (l.map fun p => if p.1 == s then (p.1, g p.2) else p).lookup s = some (g t) := by
  intro l
  induction l with
  | nil => intro t h; simp at h
  | cons p l ih =>
    intro t h
    obtain ⟨k, v⟩ := p
    by_cases hk : s = k
    · subst hk
      have h1 : (s == s) = true := by simp
      rw [List.lookup_cons, h1] at h
      have hv : some v = some t := h
      cases hv
      simp only [List.map_cons, h1, eq_self_iff_true, if_true]
      rw [List.lookup_cons, h1]
    · have h1 : (s == k) = false := by simp [hk]
      have h2 : (k == s) = false := by simp [Ne.symm hk]
      rw [List.lookup_cons, h1] at h
      have htail : List.lookup s l = some t := h
      have step := ih htail
      simp only [List.map_cons, h2, Bool.false_eq_true, if_false]
      rw [List.lookup_cons, h1]
      exact step

theorem lookup_cancelTable {tasks : Table} {s : String} {t : Task}
    (h : tasks.lookup s = some t) :
    (cancelTable tasks s).lookup s = some { t with state := "cancelled" } := by
  unfold cancelTable
  exact lookup_map_cond (fun u => { u with state := "cancelled" }) h

theorem handle_message_send_eq_some {tasks : Table} {params reqId : Json} {tid : String}
    {message : Json} {text : String}
    (hm : incomingMessage params = some message) (ht : messageText message = some text) :
    handle_message_send tasks params reqId tid =
      some (dictInsert tasks tid (sendTask tid message text),
        ⟨200, .result (sendTask tid message text).toJson, reqId⟩) := by
  simp [handle_message_send, hm, ht, sendTask]

theorem handle_message_send_some_inv {tasks : Table} {params reqId : Json} {tid : String}
    {out : Table × Response}
    (h : handle_message_send tasks params reqId tid = some out) :
    ∃ message text, incomingMessage params = some message ∧ messageText message = some text ∧
      out = (dictInsert tasks tid (sendTask tid message text),
        ⟨200, .result (sendTask tid message text).toJson, reqId⟩) := by
  unfold handle_message_send at h
  split at h
  · cases h
  · rename_i message hm
    split at h
    · cases h
    · rename_i text ht
      cases h
      exact ⟨message, text, hm, ht, rfl⟩

theorem handle_tasks_get_table {tasks : Table} {params reqId : Json} {out : Table × Response}
    (h : handle_tasks_get tasks params reqId = some out) : out.1 = tasks := by
  unfold handle_tasks_get at h
  split at h
  · cases h
  · split at h <;> cases h <;> rfl
  · cases h
  · cases h
  · cases h; rfl

theorem handle_tasks_list_table {tasks : Table} {params reqId : Json} {out : Table × Response}
    (h : handle_tasks_list tasks params reqId = some out) : out.1 = tasks := by
  cases h; rfl

theorem handle_tasks_cancel_table {tasks : Table} {params reqId : Json} {out : Table × Response}
    (h : handle_tasks_cancel tasks params reqId = some out) :
    out.1 = tasks ∨ ∃ s, out.1 = cancelTable tasks s := by
  unfold handle_tasks_cancel at h
  split at h
  · cases h
  · split at h <;> cases h
    · exact Or.inr ⟨_, rfl⟩
    · exact Or.inl rfl
  · cases h
  · cases h
  · cases h; exact Or.inl rfl

theorem fresh_iff_not_mem_keys {β : Type} {k : String} {l : List (String × β)} :
    (l.any fun p => p.1 == k) = false ↔ k ∉ l.map Prod.fst := by
  rw [List.any_eq_false]
  constructor
  · intro hfa hmem
    obtain ⟨q, hq, hqk⟩ := List.mem_map.mp hmem
    exact hfa q hq (by simp [hqk])
  · intro hno q hq hqk
    exact hno (List.mem_map.mpr ⟨q, hq, by simpa using hqk⟩)

/-- The invariant of the task table: every state is `completed` or
`cancelled`, keys are unique, and every key is one of the ids the server
generated (`allowed`). -/
def TableInv (allowed : List String) (tasks : Table) : Prop :=
  (∀ p ∈ tasks, p.2.state = "completed" ∨ p.2.state = "cancelled") ∧
  (tasks.map Prod.fst).Nodup ∧
  ∀ p ∈ tasks, p.1 ∈ allowed

theorem inv_mono {allowed allowed' : List String} {tasks : Table}
    (h : TableInv allowed tasks) (hsub : ∀ i ∈ allowed, i ∈ allowed') :
    TableInv allowed' tasks :=
  ⟨h.1, h.2.1, fun p hp => hsub _ (h.2.2 p hp)⟩

theorem inv_dictInsert {allowed : List String} {tasks : Table} {k : String} {v : Task}
    (h : TableInv allowed tasks) (hv : v.state = "completed") (hk : k ∈ allowed) :
    TableInv allowed (dictInsert tasks k v) := by
  obtain ⟨hs, hn, ha⟩ := h
  unfold dictInsert
  split
  · refine ⟨?_, ?_, ?_⟩
    · intro p hp
      obtain ⟨q, hq, rfl⟩ := List.mem_map.mp hp
      by_cases hqk : q.1 = k <;> simp [hqk]
      · exact Or.inl hv
      · exact hs q hq
    · have hkeys := keys_map_cond tasks k fun _ => v
      rw [hkeys]
      exact hn
    · intro p hp
      obtain ⟨q, hq, rfl⟩ := List.mem_map.mp hp
      by_cases hqk : q.1 = k <;> simp [hqk]
      · exact hk
      · exact ha q hq
  · rename_i hfresh
    rw [Bool.not_eq_true] at hfresh
    refine ⟨?_, ?_, ?_⟩
    · intro p hp
      rcases List.mem_append.mp hp with hp | hp
      · exact hs p hp
      · rw [List.mem_singleton.mp hp]
        exact Or.inl hv
    · rw [List.map_append]
      rw [List.nodup_append]
      refine ⟨hn, by simp, ?_⟩
      intro a ha1 ha2
      simp at ha2
      subst ha2
      exact fresh_iff_not_mem_keys.mp hfresh ha1
    · intro p hp
      rcases List.mem_append.mp hp with hp | hp
      · exact ha p hp
      · rw [List.mem_singleton.mp hp]
        exact hk

theorem inv_cancelTable {allowed : List String} {tasks : Table} {s : String}
    (h : TableInv allowed tasks) : TableInv allowed (cancelTable tasks s) := by
  obtain ⟨hs, hn, ha⟩ := h
  refine ⟨?_, ?_, ?_⟩
  · intro p hp
    obtain ⟨q, hq, rfl⟩ := List.mem_map.mp hp
    by_cases hqk : q.1 = s <;> simp [cancelTable, hqk]
    exact hs q hq
  · rw [keys_cancelTable]
    exact hn
  · intro p hp
    obtain ⟨q, hq, rfl⟩ := List.mem_map.mp hp
    by_cases hqk : q.1 = s
    · simp only [hqk]
      simp
      exact hqk ▸ ha q hq
    · simp [hqk]
      exact ha q hq

/-- The ids a single operation draws from `uuid.uuid4()`. -/
def opFreshIds : Op → List String
  | .send _ _ f => [f]
  | _ => []

theorem sendFreshIds_cons (op : Op) (ops : List Op) :
    sendFreshIds (op :: ops) = opFreshIds op ++ sendFreshIds ops := by
  cases op <;> simp [sendFreshIds, opFreshIds, List.filterMap_cons]

theorem inv_applyOp {allowed : List String} {tasks : Table} (op : Op)
    (h : TableInv allowed tasks) (hall : ∀ i ∈ opFreshIds op, i ∈ allowed) :
    TableInv allowed (applyOp tasks op) := by
  cases op with
  | send p r f =>
    show TableInv allowed
      (match handle_message_send tasks p r f with
        | some out => out.1
        | none => tasks)
    split
    · rename_i out hs
      obtain ⟨msg, text, hm, ht, rfl⟩ := handle_message_send_some_inv hs
      exact inv_dictInsert h rfl (hall f (by simp [opFreshIds]))
    · exact h
  | get p r =>
    show TableInv allowed
      (match handle_tasks_get tasks p r with
        | some out => out.1
        | none => tasks)
    split
    · rename_i out hs
      rw [handle_tasks_get_table hs]
      exact h
    · exact h
  | list p r =>
    show TableInv allowed
      (match handle_tasks_list tasks p r with
        | some out => out.1
        | none => tasks)
    split
    · rename_i out hs
      rw [handle_tasks_list_table hs]
      exact h
    · exact h
  | cancel p r =>
    show TableInv allowed
      (match handle_tasks_cancel tasks p r with
        | some out => out.1
        | none => tasks)
    split
    · rename_i out hs
      rcases handle_tasks_cancel_table hs with h1 | ⟨s, h1⟩ <;> rw [h1]
      · exact h
      · exact inv_cancelTable h
    · exact h

theorem inv_foldl : ∀ (ops : List Op) (tasks : Table) (allowed : List String),
    TableInv allowed tasks →
    TableInv (allowed ++ sendFreshIds ops) (ops.foldl applyOp tasks) := by
  intro ops
  induction ops with
  | nil =>
    intro tasks allowed h
    simpa [sendFreshIds] using h
  | cons op ops ih =>
    intro tasks allowed h
    rw [List.foldl_cons, sendFreshIds_cons, ← List.append_assoc]
    apply ih
    apply inv_applyOp op (inv_mono h ?_) ?_
    · intro i hi
      exact List.mem_append_left _ hi
    · intro i hi
      exact List.mem_append_right _ hi

/-- A `message/send` operation whose params do not make the handler raise. -/
def goodSend (op : Op) : Prop :=
  ∃ p r f, op = Op.send p r f ∧ (extractText p).isSome

theorem extractText_parts {p : Json} (h : (extractText p).isSome) :
    ∃ msg text, incomingMessage p = some msg ∧ messageText msg = some text := by
  rcases hm : incomingMessage p with _ | msg
  · rw [extractText, hm] at h
    simp at h
  · rcases ht : messageText msg with _ | text
    · rw [extractText, hm] at h
      simp [ht] at h
    · exact ⟨msg, text, rfl, ht⟩

theorem run_length : ∀ (ops : List Op) (tasks : Table),
    (∀ op ∈ ops, goodSend op) → (sendFreshIds ops).Nodup →
    (∀ i ∈ sendFreshIds ops, i ∉ tasks.map Prod.fst) →
    (ops.foldl applyOp tasks).length = tasks.length + ops.length := by
  intro ops
  induction ops with
  | nil => intro tasks _ _ _; simp
  | cons op ops ih =>
    intro tasks hall hnd hdisj
    obtain ⟨p, r, f, rfl, hex⟩ := hall op (by simp)
    obtain ⟨msg, text, hm, ht⟩ := extractText_parts hex
    have hsend := @handle_message_send_eq_some tasks p r f msg text hm ht
    have happ : applyOp tasks (Op.send p r f) = dictInsert tasks f (sendTask f msg text) := by
      show (match handle_message_send tasks p r f with
        | some out => out.1
        | none => tasks) = _
      rw [hsend]
    have hf : f ∉ tasks.map Prod.fst := by
      apply hdisj
      rw [sendFreshIds_cons]
      exact List.mem_append_left _ (by simp [opFreshIds])
    have hfresh : (tasks.any fun q => q.1 == f) = false := fresh_iff_not_mem_keys.mpr hf
    have hins : dictInsert tasks f (sendTask f msg text) =
        tasks ++ [(f, sendTask f msg text)] := dictInsert_of_fresh hfresh
    have hcons : (f :: sendFreshIds ops).Nodup := by
      rw [sendFreshIds_cons] at hnd
      simpa [opFreshIds] using hnd
    have hnd2 := List.nodup_cons.mp hcons
    have hdisj2 : ∀ i ∈ sendFreshIds ops,
        i ∉ (tasks ++ [(f, sendTask f msg text)]).map Prod.fst := by
      intro i hi
      rw [List.map_append]
      intro hmem
      rcases List.mem_append.mp hmem with hmem | hmem
      · exact hdisj i (by rw [sendFreshIds_cons]; exact List.mem_append_right _ hi) hmem
      · simp at hmem
        subst hmem
        exact hnd2.1 hi
    rw [List.foldl_cons, happ, hins,
      ih (tasks ++ [(f, sendTask f msg text)]) (fun o ho => hall o (by simp [ho])) hnd2.2 hdisj2]
    simp only [List.length_append, List.length_cons, List.length_nil]
    omega

/-- The `text` values of those parts that are objects holding a string
`"text"` member: what the extraction loop accumulates. -/
def textFields (elems : List Json) : List String :=
  elems.filterMap fun p =>
    match p with
    | .obj fields =>
      match fields.lookup "text" with
      | some (.str s) => some s
      | _ => none
    | _ => none

/-- Concatenation of a list of strings, left to right. -/
def concatTexts : List String → String
  | [] => ""
  | s :: rest => s ++ concatTexts rest

/-- A part the extraction loop traverses without raising: an object whose
`"text"` member, when present, is a string. -/
def partOk (p : Json) : Prop :=
  ∃ fields, p = Json.obj fields ∧
    ∀ v, fields.lookup "text" = some v → ∃ s, v = Json.str s

theorem extractLoop_of_partOk : ∀ (elems : List Json), (∀ p ∈ elems, partOk p) →
    ∀ acc, extractLoop elems acc = some (acc ++ concatTexts (textFields elems)) := by
  intro elems
  induction elems with
  | nil =>
    intro _ acc
    simp [extractLoop, textFields, concatTexts, String.append_empty]
  | cons p ps ih =>
    intro hall acc
    obtain ⟨fields, rfl, hstr⟩ := hall p (by simp)
    rcases hl : fields.lookup "text" with _ | v
    · have hany : (fields.any fun f => f.1 == "text") = false := by
        rw [any_key_eq_isSome_lookup, hl]
        rfl
      have hhead : pyContains "text" (Json.obj fields) = some false := by
        rw [pyContains, hany]
      have htf : textFields (Json.obj fields :: ps) = textFields ps := by
        simp [textFields, List.filterMap_cons, hl]
      rw [extractLoop, hhead, htf]
      exact ih (fun q hq => hall q (by simp [hq])) acc
    · obtain ⟨s, rfl⟩ := hstr v hl
      have hany : (fields.any fun f => f.1 == "text") = true := by
        rw [any_key_eq_isSome_lookup, hl]
        rfl
      have hhead : pyContains "text" (Json.obj fields) = some true := by
        rw [pyContains, hany]
      have htf : textFields (Json.obj fields :: ps) = s :: textFields ps := by
        simp [textFields, List.filterMap_cons, hl]
      have hsub : pySubscript (Json.obj fields) "text" = some (Json.str s) := hl
      rw [extractLoop, hhead, hsub, htf]
      show extractLoop ps (acc ++ s) = some (acc ++ concatTexts (s :: textFields ps))
      rw [ih (fun q hq => hall q (by simp [hq])) (acc ++ s)]
      rw [concatTexts, String.append_assoc]

/-- A `params` value on which `handle_message_send` cannot raise: an object
whose `message` member (when present) is an object, whose `parts` member
(when present) is an array, all of whose elements are `partOk`. -/
def sendParamsOk (params : Json) : Prop :=
  ∃ fields, params = Json.obj fields ∧
    ∀ m, fields.lookup "message" = some m →
      ∃ mfields, m = Json.obj mfields ∧
        ∀ pv, mfields.lookup "parts" = some pv →
          ∃ elems, pv = Json.arr elems ∧ ∀ p ∈ elems, partOk p

theorem messageText_of_ok {mfields : List (String × Json)}
    (hok : ∀ pv, mfields.lookup "parts" = some pv →
      ∃ elems, pv = Json.arr elems ∧ ∀ p ∈ elems, partOk p) :
    ∃ elems, (Json.obj mfields).pyGet "parts" (.arr []) = some (.arr elems) ∧
      (∀ p ∈ elems, partOk p) ∧
      messageText (Json.obj mfields) = some (concatTexts (textFields elems)) := by
  rcases hl : mfields.lookup "parts" with _ | pv
  · refine ⟨[], ?_, by simp, ?_⟩
    · rw [Json.pyGet, hl]
      rfl
    · rw [messageText]
      show (((mfields.lookup "parts").getD (.arr [])).pyIter.bind fun elems =>
        extractLoop elems "") = _
      rw [hl]
      show extractLoop [] "" = _
      rw [extractLoop_of_partOk [] (by simp) ""]
      rfl
  · obtain ⟨elems, rfl, hparts⟩ := hok pv hl
    refine ⟨elems, ?_, hparts, ?_⟩
    · rw [Json.pyGet, hl]
      rfl
    · rw [messageText]
      show (((mfields.lookup "parts").getD (.arr [])).pyIter.bind fun es =>
        extractLoop es "") = _
      rw [hl]
      show extractLoop elems "" = _
      rw [extractLoop_of_partOk elems hparts ""]
      rw [String.empty_append]

theorem handle_tasks_get_found {tasks : Table} {params reqId : Json} {s : String} {t : Task}
    (hp : params.pyGet "taskId" .null = some (.str s)) (hl : tasks.lookup s = some t) :
    handle_tasks_get tasks params reqId =
      some (tasks, ⟨200, .result t.toJson, reqId⟩) := by
  unfold handle_tasks_get
  rw [hp]
  show (match tasks.lookup s with
    | some t => some (tasks, ⟨200, .result t.toJson, reqId⟩)
    | none => some (tasks, ⟨404, .error (-32000) ("Task not found: " ++ s), reqId⟩)
    : Option (Table × Response)) = _
  rw [hl]

theorem handle_tasks_get_notfound {tasks : Table} {params reqId : Json} {s : String}
    (hp : params.pyGet "taskId" .null = some (.str s)) (hl : tasks.lookup s = none) :
    handle_tasks_get tasks params reqId =
      some (tasks, ⟨404, .error (-32000) ("Task not found: " ++ s), reqId⟩) := by
  unfold handle_tasks_get
  rw [hp]
  show (match tasks.lookup s with
    | some t => some (tasks, ⟨200, .result t.toJson, reqId⟩)
    | none => some (tasks, ⟨404, .error (-32000) ("Task not found: " ++ s), reqId⟩)
    : Option (Table × Response)) = _
  rw [hl]

theorem handle_tasks_cancel_found {tasks : Table} {params reqId : Json} {s : String} {t : Task}
    (hp : params.pyGet "taskId" .null = some (.str s)) (hl : tasks.lookup s = some t) :
    handle_tasks_cancel tasks params reqId =
      some (cancelTable tasks s,
        ⟨200, .result (Task.toJson { t with state := "cancelled" }), reqId⟩) := by
  unfold handle_tasks_cancel
  rw [hp]
  show (match tasks.lookup s with
    | some t =>
      some (cancelTable tasks s,
        ⟨200, .result (Task.toJson { t with state := "cancelled" }), reqId⟩)
    | none => some (tasks, ⟨404, .error (-32000) ("Task not found: " ++ s), reqId⟩)
    : Option (Table × Response)) = _
  rw [hl]

theorem handle_tasks_cancel_notfound {tasks : Table} {params reqId : Json} {s : String}
    (hp : params.pyGet "taskId" .null = some (.str s)) (hl : tasks.lookup s = none) :
    handle_tasks_cancel tasks params reqId =
      some (tasks, ⟨404, .error (-32000) ("Task not found: " ++ s), reqId⟩) := by
  unfold handle_tasks_cancel
  rw [hp]
  show (match tasks.lookup s with
    | some t =>
      some (cancelTable tasks s,
        ⟨200, .result (Task.toJson { t with state := "cancelled" }), reqId⟩)
    | none => some (tasks, ⟨404, .error (-32000) ("Task not found: " ++ s), reqId⟩)
    : Option (Table × Response)) = _
  rw [hl]

/-! ### Claim theorems -/

/-- C1: for every message/send request (whose text extraction succeeds with
concatenated text `text`), the reply is chosen by case-insensitive substring
matching in this exact priority order: "hello" or "hi" → greeting reply;
else "help" → help reply; else "echo" → "Echo: " followed by the text;
else the generic acknowledgement reply containing the original text. -/
theorem send_reply_priority_chain (tasks : Table) (params reqId : Json) (tid : String)
    (message : Json) (text : String)
    (hm : incomingMessage params = some message) (ht : messageText message = some text) :
    ∃ tbl, handle_message_send tasks params reqId tid =
      some (tbl, ⟨200, .result (Task.toJson ⟨tid, "completed", [message, agentMessage (
        if strContains (strLower text) "hello" || strContains (strLower text) "hi" then
          greetingReply
        else if strContains (strLower text) "help" then helpReply
        else if strContains (strLower text) "echo" then "Echo: " ++ text
        else genericReply text)]⟩), reqId⟩) := by
  refine ⟨dictInsert tasks tid (sendTask tid message text), ?_⟩
  rw [handle_message_send_eq_some hm ht]
  rfl

def c1Message : Json := .obj [("parts", .arr [.obj [("text", .str "what is ECHO")]])]

def c1Params : Json := .obj [("message", c1Message)]

theorem send_reply_priority_chain_witness :
    ∃ tbl, handle_message_send [] c1Params Json.null "task-1" =
      some (tbl, ⟨200, .result (Task.toJson ⟨"task-1", "completed",
        [c1Message, agentMessage (
          if strContains (strLower "what is ECHO") "hello" ||
              strContains (strLower "what is ECHO") "hi" then
            greetingReply
          else if strContains (strLower "what is ECHO") "help" then helpReply
          else if strContains (strLower "what is ECHO") "echo" then "Echo: " ++ "what is ECHO"
          else genericReply "what is ECHO")]⟩), Json.null⟩) :=
  send_reply_priority_chain [] c1Params Json.null "task-1" c1Message "what is ECHO" rfl rfl

def c2Message : Json := .obj [("parts", .arr [.obj [("text", .str "please echo this")]])]

def c2Params : Json := .obj [("message", c2Message)]

/-- C2 counterexample: the text "please echo this" contains "hi" (inside
"this"), so the greeting branch fires before the echo branch; the reply is
the greeting, not "Echo: please echo this". -/
theorem please_echo_this_cex :
    extractText c2Params = some "please echo this" ∧
    handle_message_send [] c2Params Json.null "task-1" =
      some ([("task-1", ⟨"task-1", "completed", [c2Message, agentMessage greetingReply]⟩)],
        ⟨200, .result (Task.toJson
          ⟨"task-1", "completed", [c2Message, agentMessage greetingReply]⟩), Json.null⟩) ∧
    greetingReply ≠ "Echo: please echo this" :=
  ⟨rfl, rfl, by decide⟩

/-- C2 amended: a message/send request whose concatenated parts text is
"please echo this" produces the greeting reply (the "hi" inside "this"
matches the first branch), not the echo reply. -/
theorem please_echo_this_yields_greeting (tasks : Table) (params reqId : Json) (tid : String)
    (h : extractText params = some "please echo this") :
    ∃ message tbl, incomingMessage params = some message ∧
      handle_message_send tasks params reqId tid =
        some (tbl, ⟨200, .result (Task.toJson
          ⟨tid, "completed", [message, agentMessage greetingReply]⟩), reqId⟩) := by
  obtain ⟨msg, text, hm, ht⟩ := extractText_parts (by rw [h]; rfl)
  have hcomp : extractText params = some text := by
    rw [extractText, hm]
    exact ht
  rw [h] at hcomp
  have htext : text = "please echo this" := by
    injection hcomp.symm
  subst htext
  refine ⟨msg, dictInsert tasks tid (sendTask tid msg "please echo this"), hm, ?_⟩
  rw [handle_message_send_eq_some hm ht]
  rfl

theorem please_echo_this_yields_greeting_witness :
    ∃ message tbl, incomingMessage c2Params = some message ∧
      handle_message_send [] c2Params Json.null "task-1" =
        some (tbl, ⟨200, .result (Task.toJson
          ⟨"task-1", "completed", [message, agentMessage greetingReply]⟩), Json.null⟩) :=
  please_echo_this_yields_greeting [] c2Params Json.null "task-1" rfl

/-- C3: a message/send request with a fresh generated id (modelling
`uuid.uuid4()`, assumed not already a key) appends a Task whose state is
"completed" and whose messages are exactly [incoming message, agent reply],
and returns that full Task as the JSON-RPC result. -/
theorem send_inserts_fresh_completed_task (tasks : Table) (params reqId : Json) (tid : String)
    (message : Json) (text : String)
    (hm : incomingMessage params = some message) (ht : messageText message = some text)
    (hfresh : (tasks.any fun p => p.1 == tid) = false) :
    tid ∉ tasks.map Prod.fst ∧
    handle_message_send tasks params reqId tid =
      some (tasks ++ [(tid, sendTask tid message text)],
        ⟨200, .result (sendTask tid message text).toJson, reqId⟩) ∧
    (sendTask tid message text).state = "completed" ∧
    (sendTask tid message text).messages = [message, agentMessage (responseText text)] := by
  refine ⟨fresh_iff_not_mem_keys.mp hfresh, ?_, rfl, rfl⟩
  rw [handle_message_send_eq_some hm ht, dictInsert_of_fresh hfresh]

def c3Task : Task := ⟨"task-0", "completed", []⟩

theorem send_inserts_fresh_completed_task_witness :
    "task-1" ∉ ([("task-0", c3Task)] : Table).map Prod.fst ∧
    handle_message_send [("task-0", c3Task)] c1Params Json.null "task-1" =
      some ([("task-0", c3Task)] ++ [("task-1", sendTask "task-1" c1Message "what is ECHO")],
        ⟨200, .result (sendTask "task-1" c1Message "what is ECHO").toJson, Json.null⟩) ∧
    (sendTask "task-1" c1Message "what is ECHO").state = "completed" ∧
    (sendTask "task-1" c1Message "what is ECHO").messages =
      [c1Message, agentMessage (responseText "what is ECHO")] :=
  send_inserts_fresh_completed_task [("task-0", c3Task)] c1Params Json.null "task-1"
    c1Message "what is ECHO" rfl rfl rfl

/-- C4: tasks/cancel with a taskId present in the table sets the stored
state of the stored task to "cancelled" in place and returns the updated Task, and a
subsequent tasks/get on the same id returns the Task with state "cancelled";
an absent taskId yields the same not-found error as tasks/get (code -32000,
HTTP 404). -/
theorem cancel_flips_state_or_404 (tasks : Table) (params reqId : Json) (s : String)
    (hp : params.pyGet "taskId" .null = some (.str s)) :
    (∀ t, tasks.lookup s = some t →
      handle_tasks_cancel tasks params reqId =
        some (cancelTable tasks s,
          ⟨200, .result (Task.toJson { t with state := "cancelled" }), reqId⟩) ∧
      (cancelTable tasks s).lookup s = some { t with state := "cancelled" } ∧
      handle_tasks_get (cancelTable tasks s) params reqId =
        some (cancelTable tasks s,
          ⟨200, .result (Task.toJson { t with state := "cancelled" }), reqId⟩)) ∧
    (tasks.lookup s = none →
      handle_tasks_cancel tasks params reqId =
        some (tasks, ⟨404, .error (-32000) ("Task not found: " ++ s), reqId⟩) ∧
      handle_tasks_get tasks params reqId =
        some (tasks, ⟨404, .error (-32000) ("Task not found: " ++ s), reqId⟩)) := by
  constructor
  · intro t hl
    refine ⟨handle_tasks_cancel_found hp hl, lookup_cancelTable hl, ?_⟩
    exact handle_tasks_get_found hp (lookup_cancelTable hl)
  · intro hl
    exact ⟨handle_tasks_cancel_notfound hp hl, handle_tasks_get_notfound hp hl⟩

def c4Task : Task := ⟨"task-7", "completed", [agentMessage "x"]⟩

def c4Params : Json := .obj [("taskId", .str "task-7")]

def c4ParamsMissing : Json := .obj [("taskId", .str "ghost")]

theorem cancel_flips_state_or_404_witness :
    (handle_tasks_cancel [("task-7", c4Task)] c4Params Json.null =
      some (cancelTable [("task-7", c4Task)] "task-7",
        ⟨200, .result (Task.toJson { c4Task with state := "cancelled" }), Json.null⟩) ∧
      (cancelTable [("task-7", c4Task)] "task-7").lookup "task-7" =
        some { c4Task with state := "cancelled" } ∧
      handle_tasks_get (cancelTable [("task-7", c4Task)] "task-7") c4Params Json.null =
        some (cancelTable [("task-7", c4Task)] "task-7",
          ⟨200, .result (Task.toJson { c4Task with state := "cancelled" }), Json.null⟩)) ∧
    (handle_tasks_cancel [("task-7", c4Task)] c4ParamsMissing Json.null =
      some ([("task-7", c4Task)],
        ⟨404, .error (-32000) ("Task not found: " ++ "ghost"), Json.null⟩)) :=
  ⟨(cancel_flips_state_or_404 [("task-7", c4Task)] c4Params Json.null "task-7" rfl).1
      c4Task rfl,
    ((cancel_flips_state_or_404 [("task-7", c4Task)] c4ParamsMissing Json.null "ghost" rfl).2
      rfl).1⟩

/-- C5: tasks/get with a taskId present in the table returns the stored Task
with HTTP 200; with an absent taskId it returns a JSON-RPC error with code
-32000 and message "Task not found: <id>" with HTTP status 404. -/
theorem get_returns_task_or_404 (tasks : Table) (params reqId : Json) (s : String)
    (hp : params.pyGet "taskId" .null = some (.str s)) :
    (∀ t, tasks.lookup s = some t →
      handle_tasks_get tasks params reqId =
        some (tasks, ⟨200, .result t.toJson, reqId⟩)) ∧
    (tasks.lookup s = none →
      handle_tasks_get tasks params reqId =
        some (tasks, ⟨404, .error (-32000) ("Task not found: " ++ s), reqId⟩)) :=
  ⟨fun _ hl => handle_tasks_get_found hp hl, fun hl => handle_tasks_get_notfound hp hl⟩

theorem get_returns_task_or_404_witness :
    (handle_tasks_get [("task-7", c4Task)] c4Params Json.null =
      some ([("task-7", c4Task)], ⟨200, .result c4Task.toJson, Json.null⟩)) ∧
    (handle_tasks_get [("task-7", c4Task)] c4ParamsMissing Json.null =
      some ([("task-7", c4Task)],
        ⟨404, .error (-32000) ("Task not found: " ++ "ghost"), Json.null⟩)) :=
  ⟨(get_returns_task_or_404 [("task-7", c4Task)] c4Params Json.null "task-7" rfl).1
      c4Task rfl,
    (get_returns_task_or_404 [("task-7", c4Task)] c4ParamsMissing Json.null "ghost" rfl).2 rfl⟩

theorem do_POST_ok_obj (tasks : Table) (fs : List (String × Json)) (fid : String) :
    do_POST tasks (.ok (.obj fs)) fid =
      (if !(((fs.lookup "jsonrpc").getD .null).isEqStr "2.0") then
        some (tasks, ⟨400, .error (-32600) "Invalid Request", (fs.lookup "id").getD .null⟩)
      else if ((fs.lookup "method").getD .null).isEqStr "message/send" then
        handle_message_send tasks ((fs.lookup "params").getD (.obj []))
          ((fs.lookup "id").getD .null) fid
      else if ((fs.lookup "method").getD .null).isEqStr "tasks/get" then
        handle_tasks_get tasks ((fs.lookup "params").getD (.obj []))
          ((fs.lookup "id").getD .null)
      else if ((fs.lookup "method").getD .null).isEqStr "tasks/list" then
        handle_tasks_list tasks ((fs.lookup "params").getD (.obj []))
          ((fs.lookup "id").getD .null)
      else if ((fs.lookup "method").getD .null).isEqStr "tasks/cancel" then
        handle_tasks_cancel tasks ((fs.lookup "params").getD (.obj []))
          ((fs.lookup "id").getD .null)
      else
        match ((fs.lookup "method").getD .null).pyFormat with
        | some mm =>
          some (tasks, ⟨400, .error (-32601) ("Method not found: " ++ mm),
            (fs.lookup "id").getD .null⟩)
        | none => none) := rfl

/-- C6: envelope validation for POST bodies proceeds in order, each failure
with HTTP 400: unparseable body → -32700 "Parse error" with id null; a body
whose jsonrpc field is not exactly "2.0" → -32600 echoing the request id;
a valid envelope whose method is none of the four known methods → -32601
with a message containing the method name. -/
theorem post_envelope_validation (tasks : Table) (fid : String)
    (fs : List (String × Json)) (m : String) :
    do_POST tasks .parseError fid =
      some (tasks, ⟨400, .error (-32700) "Parse error", .null⟩) ∧
    (((fs.lookup "jsonrpc").getD .null).isEqStr "2.0" = false →
      do_POST tasks (.ok (.obj fs)) fid =
        some (tasks, ⟨400, .error (-32600) "Invalid Request",
          (fs.lookup "id").getD .null⟩)) ∧
    ((fs.lookup "jsonrpc").getD .null = .str "2.0" →
      (fs.lookup "method").getD .null = .str m →
      m ∉ (["message/send", "tasks/get", "tasks/list", "tasks/cancel"] : List String) →
      do_POST tasks (.ok (.obj fs)) fid =
        some (tasks, ⟨400, .error (-32601) ("Method not found: " ++ m),
          (fs.lookup "id").getD .null⟩)) := by
  refine ⟨rfl, ?_, ?_⟩
  · intro hj
    rw [do_POST_ok_obj]
    simp only [hj, Bool.not_false, if_true]
  · intro hj hm hnot
    have hne : m ≠ "message/send" ∧ m ≠ "tasks/get" ∧ m ≠ "tasks/list" ∧
        m ≠ "tasks/cancel" := by
      simpa using hnot
    have e1 : (m == "message/send") = false := by simp [hne.1]
    have e2 : (m == "tasks/get") = false := by simp [hne.2.1]
    have e3 : (m == "tasks/list") = false := by simp [hne.2.2.1]
    have e4 : (m == "tasks/cancel") = false := by simp [hne.2.2.2]
    rw [do_POST_ok_obj, hj, hm]
    simp only [Json.isEqStr, Json.pyFormat, e1, e2, e3, e4, Bool.false_eq_true, if_false]
    rfl

def c6BadVersion : List (String × Json) := [("jsonrpc", .str "1.0"), ("id", .num 7)]

def c6BadMethod : List (String × Json) :=
  [("jsonrpc", .str "2.0"), ("method", .str "tasks/purge"), ("id", .num 8)]

theorem post_envelope_validation_witness :
    (do_POST [] .parseError "u0" =
      some ([], ⟨400, .error (-32700) "Parse error", .null⟩)) ∧
    (do_POST [] (.ok (.obj c6BadVersion)) "u0" =
      some ([], ⟨400, .error (-32600) "Invalid Request",
        (c6BadVersion.lookup "id").getD .null⟩)) ∧
    (do_POST [] (.ok (.obj c6BadMethod)) "u0" =
      some ([], ⟨400, .error (-32601) ("Method not found: " ++ "tasks/purge"),
        (c6BadMethod.lookup "id").getD .null⟩)) :=
  ⟨(post_envelope_validation [] "u0" c6BadVersion "x").1,
    (post_envelope_validation [] "u0" c6BadVersion "x").2.1 rfl,
    (post_envelope_validation [] "u0" c6BadMethod "tasks/purge").2.2 rfl rfl (by decide)⟩

/-- C7: in every table reachable from the empty table by any sequence of the
four operations, every stored task has state "completed" or "cancelled",
every key is unique, and every key was generated by the server — it is one
of the `uuid.uuid4()` ids drawn by the message/send operations of the trace,
never client-supplied input. -/
theorem task_table_invariant (ops : List Op) :
    (∀ p ∈ runOps ops, p.2.state = "completed" ∨ p.2.state = "cancelled") ∧
    ((runOps ops).map Prod.fst).Nodup ∧
    ∀ p ∈ runOps ops, p.1 ∈ sendFreshIds ops := by
  have h := inv_foldl ops [] []
    ⟨fun p hp => absurd hp (List.not_mem_nil p), by simp,
      fun p hp => absurd hp (List.not_mem_nil p)⟩
  rw [List.nil_append] at h
  exact h

def c7Op : Op := Op.send (Json.obj []) Json.null "uuid-1"

theorem task_table_invariant_witness :
    (("uuid-1", sendTask "uuid-1" (Json.obj []) "").2.state = "completed" ∨
      ("uuid-1", sendTask "uuid-1" (Json.obj []) "").2.state = "cancelled") ∧
    ("uuid-1", sendTask "uuid-1" (Json.obj []) "").1 ∈ sendFreshIds [c7Op] := by
  have h := task_table_invariant [c7Op]
  have hrun : runOps [c7Op] = [("uuid-1", sendTask "uuid-1" (Json.obj []) "")] := rfl
  have hmem : ("uuid-1", sendTask "uuid-1" (Json.obj []) "") ∈ runOps [c7Op] := by
    rw [hrun]
    exact List.mem_singleton.mpr rfl
  exact ⟨h.1 _ hmem, h.2.2 _ hmem⟩

/-- C8: only message/send adds entries and only tasks/cancel mutates one,
changing nothing but the state field; tasks/get and tasks/list leave the
table unchanged; no operation removes a key, and a stored task stays visible
to tasks/get. -/
theorem handler_frame_conditions :
    (∀ (tasks : Table) (params reqId : Json) (out : Table × Response),
      handle_tasks_get tasks params reqId = some out → out.1 = tasks) ∧
    (∀ (tasks : Table) (params reqId : Json) (out : Table × Response),
      handle_tasks_list tasks params reqId = some out → out.1 = tasks) ∧
    (∀ (tasks : Table) (params reqId : Json) (out : Table × Response),
      handle_tasks_cancel tasks params reqId = some out →
        out.1.map Prod.fst = tasks.map Prod.fst ∧
        List.Forall₂ (fun a b : String × Task =>
          b.1 = a.1 ∧ b.2.id = a.2.id ∧ b.2.messages = a.2.messages ∧
          (b.2.state = a.2.state ∨ b.2.state = "cancelled")) tasks out.1) ∧
    (∀ (tasks : Table) (op : Op) (k : String),
      k ∈ tasks.map Prod.fst → k ∈ (applyOp tasks op).map Prod.fst) ∧
    (∀ (tasks : Table) (k : String) (t : Task) (reqId : Json),
      tasks.lookup k = some t →
      handle_tasks_get tasks (.obj [("taskId", .str k)]) reqId =
        some (tasks, ⟨200, .result t.toJson, reqId⟩)) := by
  refine ⟨fun _ _ _ _ h => handle_tasks_get_table h,
    fun _ _ _ _ h => handle_tasks_list_table h, ?_, ?_, ?_⟩
  · intro tasks params reqId out h
    rcases handle_tasks_cancel_table h with h1 | ⟨s, h1⟩ <;> rw [h1]
    · exact ⟨rfl, List.forall₂_same.mpr fun x _ => ⟨rfl, rfl, rfl, Or.inl rfl⟩⟩
    · refine ⟨keys_cancelTable tasks s, ?_⟩
      unfold cancelTable
      rw [List.forall₂_map_right_iff]
      apply List.forall₂_same.mpr
      intro x _
      by_cases hx : x.1 = s
      · simp [hx]
      · simp [hx]
  · intro tasks op k hk
    cases op with
    | send p r f =>
      show k ∈ ((match handle_message_send tasks p r f with
        | some out => out.1
        | none => tasks).map Prod.fst)
      split
      · rename_i out hs
        obtain ⟨msg, text, hm, ht, rfl⟩ := handle_message_send_some_inv hs
        rcases keys_dictInsert tasks f (sendTask f msg text) with hkeys | hkeys <;>
          rw [hkeys]
        · exact hk
        · exact List.mem_append_left _ hk
      · exact hk
    | get p r =>
      show k ∈ ((match handle_tasks_get tasks p r with
        | some out => out.1
        | none => tasks).map Prod.fst)
      split
      · rename_i out hs
        rw [handle_tasks_get_table hs]
        exact hk
      · exact hk
    | list p r =>
      show k ∈ ((match handle_tasks_list tasks p r with
        | some out => out.1
        | none => tasks).map Prod.fst)
      split
      · rename_i out hs
        rw [handle_tasks_list_table hs]
        exact hk
      · exact hk
    | cancel p r =>
      show k ∈ ((match handle_tasks_cancel tasks p r with
        | some out => out.1
        | none => tasks).map Prod.fst)
      split
      · rename_i out hs
        rcases handle_tasks_cancel_table hs with h1 | ⟨s, h1⟩ <;> rw [h1]
        · exact hk
        · rw [keys_cancelTable]
          exact hk
      · exact hk
  · intro tasks k t reqId hl
    exact handle_tasks_get_found rfl hl

def w8Task : Task := ⟨"w8", "completed", []⟩

theorem handler_frame_conditions_witness :
    handle_tasks_get [("w8", w8Task)] (.obj [("taskId", .str "w8")]) Json.null =
      some ([("w8", w8Task)], ⟨200, .result w8Task.toJson, Json.null⟩) :=
  handler_frame_conditions.2.2.2.2 [("w8", w8Task)] "w8" w8Task Json.null rfl

/-- C9: tasks/list returns all currently stored tasks wrapped as
{"tasks": [...]}, and after exactly N message/send operations (each
succeeding, with distinct generated ids) and no other table-modifying
operations, the table holds exactly N tasks. -/
theorem list_returns_all_tasks (ops : List Op)
    (hall : ∀ op ∈ ops, goodSend op) (hnd : (sendFreshIds ops).Nodup) :
    (∀ (tasks : Table) (params reqId : Json),
      handle_tasks_list tasks params reqId =
        some (tasks,
          ⟨200, .result (.obj [("tasks", .arr (tasks.map fun q => q.2.toJson))]),
            reqId⟩)) ∧
    (runOps ops).length = ops.length := by
  refine ⟨fun tasks params reqId => rfl, ?_⟩
  have h := run_length ops [] hall hnd (by intro i hi; simp)
  simpa [runOps] using h

def c9Op1 : Op := Op.send (Json.obj []) Json.null "uuid-a"

def c9Op2 : Op := Op.send (Json.obj []) Json.null "uuid-b"

theorem list_returns_all_tasks_witness :
    (handle_tasks_list (runOps [c9Op1, c9Op2]) (Json.obj []) Json.null =
      some (runOps [c9Op1, c9Op2],
        ⟨200, .result (.obj [("tasks",
          .arr ((runOps [c9Op1, c9Op2]).map fun q => q.2.toJson))]), Json.null⟩)) ∧
    (runOps [c9Op1, c9Op2]).length = 2 := by
  have hall : ∀ op ∈ [c9Op1, c9Op2], goodSend op := by
    intro op hop
    rcases List.mem_cons.mp hop with rfl | hop
    · exact ⟨_, _, _, rfl, rfl⟩
    rcases List.mem_cons.mp hop with rfl | hop
    · exact ⟨_, _, _, rfl, rfl⟩
    exact absurd hop (List.not_mem_nil op)
  have hnd : (sendFreshIds [c9Op1, c9Op2]).Nodup := by decide
  exact ⟨(list_returns_all_tasks [c9Op1, c9Op2] hall hnd).1 _ _ _,
    (list_returns_all_tasks [c9Op1, c9Op2] hall hnd).2⟩

/-- C10 counterexample: a params value that is not a JSON object (here the
number 5) makes the read of the "message" member raise AttributeError: the
handler does not succeed and no task is created or returned. -/
theorem send_crashes_on_non_object_params_cex :
    handle_message_send [] (Json.num 5) Json.null "task-1" = none ∧
    do_POST [] (.ok (.obj [("jsonrpc", .str "2.0"), ("method", .str "message/send"),
      ("params", .num 5), ("id", .num 1)])) "task-1" = none :=
  ⟨rfl, rfl⟩

/-- C10 amended: for every params value that is an object whose "message"
member (when present) is an object, whose "parts" member (when present) is
an array of objects whose "text" members (when present) are strings,
message/send succeeds without an error envelope, treating the extracted text
as the concatenation of exactly the string "text" fields of the parts
(the empty string when there are none, which takes the generic
acknowledgement branch), and creates and returns a task.  This condition is
sufficient, not necessary: other params values may also succeed (a string
"parts" value, for example, iterates its characters). -/
theorem send_succeeds_on_wellformed_params (tasks : Table) (params reqId : Json)
    (tid : String) (h : sendParamsOk params) :
    (∃ message elems,
      incomingMessage params = some message ∧
      message.pyGet "parts" (.arr []) = some (.arr elems) ∧
      messageText message = some (concatTexts (textFields elems)) ∧
      handle_message_send tasks params reqId tid =
        some (dictInsert tasks tid (sendTask tid message (concatTexts (textFields elems))),
          ⟨200, .result (sendTask tid message (concatTexts (textFields elems))).toJson,
            reqId⟩)) ∧
    responseText "" = genericReply "" := by
  obtain ⟨fields, rfl, hmsg⟩ := h
  refine ⟨?_, rfl⟩
  rcases hl : fields.lookup "message" with _ | m
  · obtain ⟨elems, hparts, hpok, htext⟩ :=
      @messageText_of_ok [] (by intro pv hpv; simp at hpv)
    have hin : incomingMessage (Json.obj fields) = some (Json.obj []) := by
      show some ((fields.lookup "message").getD (.obj [])) = some (Json.obj [])
      rw [hl]
      rfl
    exact ⟨Json.obj [], elems, hin, hparts, htext,
      handle_message_send_eq_some hin htext⟩
  · obtain ⟨mfields, rfl, hok⟩ := hmsg m hl
    obtain ⟨elems, hparts, hpok, htext⟩ := messageText_of_ok hok
    have hin : incomingMessage (Json.obj fields) = some (Json.obj mfields) := by
      show some ((fields.lookup "message").getD (.obj [])) = some (Json.obj mfields)
      rw [hl]
      rfl
    exact ⟨Json.obj mfields, elems, hin, hparts, htext,
      handle_message_send_eq_some hin htext⟩

def c10Params : Json :=
  .obj [("message", .obj [("parts", .arr
    [.obj [("text", .str "first")], .obj [("note", .null)],
      .obj [("text", .str " second")]])])]

theorem c10ParamsOk : sendParamsOk c10Params := by
  refine ⟨_, rfl, ?_⟩
  intro m hm
  have hm2 : some (Json.obj [("parts", .arr
      [.obj [("text", .str "first")], .obj [("note", .null)],
        .obj [("text", .str " second")]])]) = some m := hm
  cases hm2
  refine ⟨_, rfl, ?_⟩
  intro pv hpv
  have hpv2 : some (Json.arr
      [.obj [("text", .str "first")], .obj [("note", .null)],
        .obj [("text", .str " second")]]) = some pv := hpv
  cases hpv2
  refine ⟨_, rfl, ?_⟩
  intro p hp
  rcases List.mem_cons.mp hp with rfl | hp
  · exact ⟨_, rfl, fun v hv => ⟨"first", by
      have : some (Json.str "first") = some v := hv
      cases this
      rfl⟩⟩
  rcases List.mem_cons.mp hp with rfl | hp
  · exact ⟨_, rfl, fun v hv => by
      have : (none : Option Json) = some v := hv
      cases this⟩
  rcases List.mem_cons.mp hp with rfl | hp
  · exact ⟨_, rfl, fun v hv => ⟨" second", by
      have : some (Json.str " second") = some v := hv
      cases this
      rfl⟩⟩
  exact absurd hp (List.not_mem_nil p)

theorem send_succeeds_on_wellformed_params_witness :
    (∃ message elems,
      incomingMessage c10Params = some message ∧
      message.pyGet "parts" (.arr []) = some (.arr elems) ∧
      messageText message = some (concatTexts (textFields elems)) ∧
      handle_message_send [] c10Params Json.null "task-1" =
        some (dictInsert [] "task-1"
            (sendTask "task-1" message (concatTexts (textFields elems))),
          ⟨200, .result
            (sendTask "task-1" message (concatTexts (textFields elems))).toJson,
            Json.null⟩)) ∧
    responseText "" = genericReply "" :=
  send_succeeds_on_wellformed_params [] c10Params Json.null "task-1" c10ParamsOk

end A2A
